import Mathlib

/-!
# Verification of the idb-mutex lock protocol

A shallow embedding of `src/index.ts` (the `Mutex` class): the lock record
model, the compare-and-swap acquisition attempt `_tryLock`, the spin loop
`lock`, the unconditional release `unlock`, and the constructor's option
handling.

Modelling choices:
* The IndexedDB value stored under the mutex's key is `Option LockMeta`
  (`none` = the key is absent).  `LockMeta.owner` is `Option String`
  because `unlock` writes `{ owner: null, expiresAt: 0 }`.
* Timestamps and durations are `Int` (JS numbers used as millisecond
  counts).  `Date.now()` is read inside one synchronous transaction
  callback, so a single `now` parameter stands for its value during an
  attempt.
* IndexedDB request failures are modelled by `Option String` error slots
  (`readErr` for the `get` request, `writeErr` for the `put` request); a
  fallible operation returns `Except String _`.
* The spin loop of `lock()` is driven by an environment
  `env : Nat → Option LockMeta × Int` giving the stored record and the
  clock at each attempt (other tabs may overwrite the record between
  attempts), and a fuel bound to keep the recursion total.
* `Math.round(Math.random() * 10000).toString()` is modelled over an
  explicit random draw `r : ℚ` with `0 ≤ r < 1`; `jsRound` is JS's
  round-half-up.
-/

namespace IdbMutex

/-- `const DEFAULT_EXPIRY = 10 * 1000;` -/
def DEFAULT_EXPIRY : Int := 10 * 1000

/-- The struct written to IDB holding details of the lock's current owner
(`interface LockMeta`).  `owner` is optional because `unlock` stores
`owner: null`. -/
structure LockMeta where
  owner : Option String
  expiresAt : Int
deriving Repr, DecidableEq

/-- The `Options` bag passed to the constructor; each field may be absent. -/
structure Options where
  expiry : Option Int := none
  objectStoreName : Option String := none
  spinDelay : Option Int := none
deriving Repr, DecidableEq

/-- JS truthiness of an optional number: present and nonzero. -/
def truthyInt : Option Int → Bool
  | none => false
  | some n => n != 0

/-- JS truthiness of an optional string: present and nonempty. -/
def truthyStr : Option String → Bool
  | none => false
  | some s => s != ""

/-- The in-process `Mutex` handle state set up by the constructor.
`openedDefaultDb` records, when the caller supplied no database, the
`(database name, object store name)` pair that `_initDb` opens/creates;
it is `none` when an external database promise was supplied. -/
structure Mutex where
  name : String
  id : String
  objectStoreName : String
  expiry : Int
  spinDelay : Int
  openedDefaultDb : Option (String × String)
deriving Repr, DecidableEq

/-- JS `Math.round`: round half away from zero; for the nonnegative inputs
here, `⌊x + 1/2⌋`. -/
def jsRound (x : ℚ) : Int := ⌊x + 1 / 2⌋

/-- `this._id = Math.round(Math.random() * 10000).toString();` where `r`
is the draw of `Math.random()`. -/
def mkId (r : ℚ) : String := toString (jsRound (r * 10000))

/-- The constructor body (`constructor(name, db?, options?)`):
* `_id` from the random draw `r`;
* `_objectStoreName = 'mutexes'` overridden by a truthy
  `options.objectStoreName`;
* `_db = db || this._initDb(this._objectStoreName)` — when `dbSupplied`
  is false, `_initDb` opens database `'idb-mutex'` and creates the object
  store;
* `_expiry = (options && options.expiry) ? options.expiry : DEFAULT_EXPIRY`;
* `_spinDelay = (options && options.spinDelay) ? options.spinDelay : 50`. -/
def mkMutex (name : String) (r : ℚ) (dbSupplied : Bool)
    (options : Option Options) : Mutex :=
  let osn :=
    match options with
    | none => "mutexes"
    | some o => if truthyStr o.objectStoreName then o.objectStoreName.getD "mutexes" else "mutexes"
  { name := name
    id := mkId r
    objectStoreName := osn
    expiry :=
      match options with
      | none => DEFAULT_EXPIRY
      | some o => if truthyInt o.expiry then o.expiry.getD 0 else DEFAULT_EXPIRY
    spinDelay :=
      match options with
      | none => 50
      | some o => if truthyInt o.spinDelay then o.spinDelay.getD 0 else 50
    openedDefaultDb := if dbSupplied then none else some ("idb-mutex", osn) }

/-- The grant condition of `_tryLock`:
`!lockMeta || lockMeta.owner === this._id || lockMeta.expiresAt < Date.now()`.
A `null` owner is never `===` a string id. -/
def tryLockGrant (m : Mutex) (rec : Option LockMeta) (now : Int) : Bool :=
  match rec with
  | none => true
  | some meta => meta.owner == some m.id || decide (meta.expiresAt < now)

/-- The record a granted `_tryLock` writes:
`{ owner: this._id, expiresAt: Date.now() + this._expiry }`. -/
def newLockMeta (m : Mutex) (now : Int) : LockMeta :=
  { owner := some m.id, expiresAt := now + m.expiry }

/-- `_tryLock` with both IDB requests succeeding: returns the resolved
boolean and the store contents under the key afterwards (the `put` happens
only on the grant branch). -/
def tryLock (m : Mutex) (rec : Option LockMeta) (now : Int) :
    Bool × Option LockMeta :=
  if tryLockGrant m rec now then (true, some (newLockMeta m now))
  else (false, rec)

/-- `_tryLock` with the IDB requests allowed to fail: a failing `get`
rejects with its error before the condition is evaluated; on the grant
branch a failing `put` rejects with its error; the denied branch performs
no write and resolves `false`. -/
def tryLockE (m : Mutex) (rec : Option LockMeta) (now : Int)
    (readErr writeErr : Option String) :
    Except String (Bool × Option LockMeta) :=
  match readErr with
  | some e => .error e
  | none =>
    if tryLockGrant m rec now then
      match writeErr with
      | some e => .error e
      | none => .ok (true, some (newLockMeta m now))
    else .ok (false, rec)

/-- The record `unlock` puts: `{ expiresAt: 0, owner: null }`. -/
def unlockedMeta : LockMeta := { owner := none, expiresAt := 0 }

/-- `unlock()`: an unconditional `put` of `unlockedMeta` under the key,
ignoring the prior record `rec`; rejects exactly when the `put` request
errors. -/
def unlock (_m : Mutex) (_rec : Option LockMeta) (writeErr : Option String) :
    Except String (Option LockMeta) :=
  match writeErr with
  | some e => .error e
  | none => .ok (some unlockedMeta)

/-- The spin loop of `lock()` over error-free attempts.  `env k` is the
stored record and clock seen by attempt `k`; `waited` accumulates the
`await delay(this._spinDelay)` performed after each denied attempt.
Returns `some (k, waited)` when attempt `k` is granted (`break`), `none`
when `fuel` attempts were all denied. -/
def lockSpin (m : Mutex) (env : Nat → Option LockMeta × Int) :
    Nat → Nat → Int → Option (Nat × Int)
  | 0, _, _ => none
  | fuel + 1, k, waited =>
    if tryLockGrant m (env k).1 (env k).2 then some (k, waited)
    else lockSpin m env fuel (k + 1) (waited + m.spinDelay)

/-- One attempt's environment for the fallible spin loop. -/
structure Attempt where
  stored : Option LockMeta
  now : Int
  readErr : Option String := none
  writeErr : Option String := none

/-- The `_tryLock` call performed by attempt `k` of the spin loop. -/
def attemptE (m : Mutex) (env : Nat → Attempt) (k : Nat) :
    Except String (Bool × Option LockMeta) :=
  tryLockE m (env k).stored (env k).now (env k).readErr (env k).writeErr

/-- The spin loop of `lock()` with fallible attempts: a rejected
`_tryLock` propagates out of the loop at once (`some (.error e)`); a
granted attempt breaks with its index (`some (.ok k)`); a denied attempt
waits and retries; `none` means `fuel` attempts were all denied. -/
def lockSpinE (m : Mutex) (env : Nat → Attempt) :
    Nat → Nat → Option (Except String Nat)
  | 0, _ => none
  | fuel + 1, k =>
    match attemptE m env k with
    | .error e => some (.error e)
    | .ok (true, _) => some (.ok k)
    | .ok (false, _) => lockSpinE m env fuel (k + 1)

/-- A concrete handle used by closed witnesses and counterexamples. -/
def handleA : Mutex :=
  { name := "mylock", id := "1", objectStoreName := "mutexes",
    expiry := 10000, spinDelay := 50, openedDefaultDb := none }

/-- A second concrete handle with a different id. -/
def handleB : Mutex :=
  { name := "mylock", id := "2", objectStoreName := "mutexes",
    expiry := 10000, spinDelay := 50, openedDefaultDb := none }

end IdbMutex

namespace IdbMutex

/-! ## Basic facts about a single acquisition attempt -/

/-- The grant condition, spelled out over the stored record. -/
theorem tryLockGrant_iff (m : Mutex) (rec : Option LockMeta) (now : Int) :
    tryLockGrant m rec now = true ↔
      rec = none ∨ ∃ meta, rec = some meta ∧
        (meta.owner = some m.id ∨ meta.expiresAt < now) := by
  cases rec with
  | none => simp [tryLockGrant]
  | some meta => simp [tryLockGrant]

/-- A granted attempt stores exactly the freshly-built record. -/
theorem tryLock_snd_of_grant (m : Mutex) (rec : Option LockMeta) (now : Int) :
    (tryLock m rec now).1 = true → (tryLock m rec now).2 = some (newLockMeta m now) := by
  unfold tryLock
  cases hg : tryLockGrant m rec now <;> simp [hg]

/-- A granted attempt's record is owned by the grantee. -/
theorem tryLock_fst_iff (m : Mutex) (rec : Option LockMeta) (now : Int) :
    (tryLock m rec now).1 = tryLockGrant m rec now := by
  unfold tryLock
  cases hg : tryLockGrant m rec now <;> simp [hg]

/-- C1: `_tryLock` returns granted iff the record is absent, owned by this
handle's id, or has `expiresAt < now`; when granted it writes
`{owner: this id, expiresAt: now + expiry}`, and when denied it returns
`false` and leaves the stored record unchanged. -/
theorem tryLock_correct (m : Mutex) (rec : Option LockMeta) (now : Int) :
    ((tryLock m rec now).1 = true ↔
      rec = none ∨ ∃ meta, rec = some meta ∧
        (meta.owner = some m.id ∨ meta.expiresAt < now)) ∧
    ((tryLock m rec now).1 = true →
      (tryLock m rec now).2 = some { owner := some m.id, expiresAt := now + m.expiry }) ∧
    ((tryLock m rec now).1 = false → (tryLock m rec now).2 = rec) := by
  refine ⟨?_, ?_, ?_⟩
  · rw [tryLock_fst_iff]
    exact tryLockGrant_iff m rec now
  · exact tryLock_snd_of_grant m rec now
  · unfold tryLock
    cases hg : tryLockGrant m rec now <;> simp [hg]

/-- C3: `unlock()` writes `{owner: null, expiresAt: 0}` regardless of the
prior record (held, expired, free or never created) and succeeds whenever
the underlying `put` succeeds; on a never-locked or already-unlocked name
it succeeds the same way, leaving the record in the unlocked state.  When
the `put` fails it rejects with that error. -/
theorem unlock_correct (m : Mutex) (rec : Option LockMeta) :
    unlock m rec none = .ok (some { owner := none, expiresAt := 0 }) ∧
    (∀ e, unlock m rec (some e) = .error e) := by
  exact ⟨rfl, fun _ => rfl⟩

/-- C8 (counterexample): a record whose `owner` is `null` but whose
`expiresAt` has not passed is NOT granted — the claim's "regardless of the
record's expiresAt value" fails.  At `now = 50` against
`{owner: null, expiresAt: 100}` the attempt is denied. -/
theorem null_owner_unexpired_denied :
    tryLock handleA (some { owner := none, expiresAt := 100 }) 50 =
      (false, some { owner := none, expiresAt := 100 }) := by decide

/-- C8 (amended): an absent record is always granted; a record with
`owner = null` is granted exactly when `expiresAt < now` — in particular
the `{owner: null, expiresAt: 0}` record written by `unlock` is granted at
any positive `now` — and denied otherwise. -/
theorem null_owner_grant_iff_expired (m : Mutex) (e now : Int) :
    tryLockGrant m none now = true ∧
    tryLockGrant m (some { owner := none, expiresAt := e }) now = decide (e < now) ∧
    (0 < now → tryLockGrant m (some unlockedMeta) now = true) := by
  refine ⟨rfl, ?_, ?_⟩
  · simp [tryLockGrant]
  · intro h
    simp [tryLockGrant, unlockedMeta, h]

/-- C9: a caller-supplied `expiry` of `0` or `spinDelay` of `0` is falsy,
so the constructor silently substitutes the defaults (10000 and 50); the
zero value is never used. -/
theorem zero_options_use_defaults (name : String) (r : ℚ) (db : Bool) (o : Options) :
    (o.expiry = some 0 → (mkMutex name r db (some o)).expiry = 10000) ∧
    (o.spinDelay = some 0 → (mkMutex name r db (some o)).spinDelay = 50) := by
  constructor
  · intro h
    simp [mkMutex, truthyInt, h, DEFAULT_EXPIRY]
  · intro h
    simp [mkMutex, truthyInt, h]



/-! ## The spin loop of `lock()` -/

/-- Unfolding one attempt of the spin loop. -/
theorem lockSpin_succ (m : Mutex) (env : Nat → Option LockMeta × Int)
    (fuel k w) :
    lockSpin m env (fuel + 1) k w =
      if tryLockGrant m (env k).1 (env k).2 then some (k, w)
      else lockSpin m env fuel (k + 1) (w + m.spinDelay) := rfl

/-- Soundness of the spin loop: a resolution at attempt `k` means attempt
`k` was granted, every earlier attempt was denied and one `spinDelay` wait
was performed per denied attempt. -/
theorem lockSpin_sound (m : Mutex) (env : Nat → Option LockMeta × Int) :
    ∀ (fuel k0 : Nat) (w0 : Int) (k : Nat) (d : Int),
      lockSpin m env fuel k0 w0 = some (k, d) →
        ∃ i, i < fuel ∧ k = k0 + i ∧ d = w0 + (i : Int) * m.spinDelay ∧
          tryLockGrant m (env (k0 + i)).1 (env (k0 + i)).2 = true ∧
          ∀ j, j < i → tryLockGrant m (env (k0 + j)).1 (env (k0 + j)).2 = false := by
  intro fuel
  induction fuel with
  | zero =>
    intro k0 w0 k d h
    simp [lockSpin] at h
  | succ fuel ih =>
    intro k0 w0 k d h
    rw [lockSpin_succ] at h
    by_cases hg : tryLockGrant m (env k0).1 (env k0).2 = true
    · rw [if_pos hg] at h
      obtain ⟨hk, hd⟩ := Prod.mk.injEq .. ▸ Option.some.inj h
      refine ⟨0, Nat.succ_pos fuel, by omega, ?_, ?_, fun j hj => absurd hj (Nat.not_lt_zero j)⟩
      · rw [← hd]; push_cast; ring
      · rw [Nat.add_zero]; exact hg
    · rw [if_neg hg] at h
      obtain ⟨i, hif, hk, hd, hgi, hprev⟩ := ih (k0 + 1) (w0 + m.spinDelay) k d h
      refine ⟨i + 1, by omega, by omega, ?_, ?_, ?_⟩
      · rw [hd]; push_cast; ring
      · have : k0 + 1 + i = k0 + (i + 1) := by omega
        rw [← this]; exact hgi
      · intro j hj
        cases j with
        | zero => rw [Nat.add_zero]; exact Bool.not_eq_true _ ▸ Bool.eq_false_iff.mpr hg
        | succ j' =>
          have h1 := hprev j' (by omega)
          have : k0 + 1 + j' = k0 + (j' + 1) := by omega
          rw [← this]; exact h1

/-- Completeness of the spin loop: if attempt `i` (counting from the
start index) is the first granted one and the fuel reaches it, the loop
resolves there having waited `spinDelay` per denied attempt. -/
theorem lockSpin_complete (m : Mutex) (env : Nat → Option LockMeta × Int) :
    ∀ (i fuel k0 : Nat) (w0 : Int), i < fuel →
      tryLockGrant m (env (k0 + i)).1 (env (k0 + i)).2 = true →
      (∀ j, j < i → tryLockGrant m (env (k0 + j)).1 (env (k0 + j)).2 = false) →
      lockSpin m env fuel k0 w0 = some (k0 + i, w0 + (i : Int) * m.spinDelay) := by
  intro i
  induction i with
  | zero =>
    intro fuel k0 w0 hif hg _
    obtain ⟨f, rfl⟩ : ∃ f, fuel = f + 1 := ⟨fuel - 1, by omega⟩
    rw [Nat.add_zero] at hg
    rw [lockSpin_succ, if_pos hg]
    congr 1
    rw [Prod.mk.injEq]
    constructor
    · omega
    · push_cast; ring
  | succ i ih =>
    intro fuel k0 w0 hif hg hprev
    obtain ⟨f, rfl⟩ : ∃ f, fuel = f + 1 := ⟨fuel - 1, by omega⟩
    have hg0 : tryLockGrant m (env k0).1 (env k0).2 = false := by
      have := hprev 0 (Nat.succ_pos i)
      rwa [Nat.add_zero] at this
    rw [lockSpin_succ, if_neg (by rw [hg0]; simp)]
    have hg' : tryLockGrant m (env (k0 + 1 + i)).1 (env (k0 + 1 + i)).2 = true := by
      have : k0 + 1 + i = k0 + (i + 1) := by omega
      rw [this]; exact hg
    have hprev' : ∀ j, j < i →
        tryLockGrant m (env (k0 + 1 + j)).1 (env (k0 + 1 + j)).2 = false := by
      intro j hj
      have : k0 + 1 + j = k0 + (j + 1) := by omega
      rw [this]; exact hprev (j + 1) (by omega)
    have := ih f (k0 + 1) (w0 + m.spinDelay) (by omega) hg' hprev'
    rw [this]
    congr 1
    rw [Prod.mk.injEq]
    constructor
    · omega
    · push_cast; ring

/-- The spin loop exhausts its fuel exactly when all its attempts were
denied: without a granted attempt `lock()` never resolves. -/
theorem lockSpin_none_iff (m : Mutex) (env : Nat → Option LockMeta × Int) :
    ∀ (fuel k0 : Nat) (w0 : Int),
      lockSpin m env fuel k0 w0 = none ↔
        ∀ j, j < fuel → tryLockGrant m (env (k0 + j)).1 (env (k0 + j)).2 = false := by
  intro fuel
  induction fuel with
  | zero =>
    intro k0 w0
    simp [lockSpin]
  | succ fuel ih =>
    intro k0 w0
    rw [lockSpin_succ]
    by_cases hg : tryLockGrant m (env k0).1 (env k0).2 = true
    · rw [if_pos hg]
      simp only [reduceCtorEq, false_iff, not_forall]
      refine ⟨0, Nat.succ_pos fuel, ?_⟩
      rw [Nat.add_zero, hg]
      simp
    · rw [if_neg hg]
      rw [ih (k0 + 1) (w0 + m.spinDelay)]
      constructor
      · intro h j hj
        cases j with
        | zero =>
          rw [Nat.add_zero]
          exact Bool.eq_false_iff.mpr hg
        | succ j' =>
          have h1 := h j' (by omega)
          have he : k0 + 1 + j' = k0 + (j' + 1) := by omega
          rw [← he]; exact h1
      · intro h j hj
        have h1 := h (j + 1) (by omega)
        have he : k0 + 1 + j = k0 + (j + 1) := by omega
        rw [he]; exact h1

/-- C4: starting from attempt `0` with no wait performed, `lock()`'s spin
loop resolves at attempt `k` having accumulated exactly `k` waits of
`spinDelay` (one between each denied attempt and the next) iff attempt `k`
is granted and every earlier attempt is denied — with no backoff growth,
no attempt bound beyond the modelling fuel, and no timeout: within any
fuel the loop yields no result at all iff every attempt was denied. -/
theorem lock_spin_correct (m : Mutex) (env : Nat → Option LockMeta × Int)
    (fuel k : Nat) (d : Int) :
    (lockSpin m env fuel 0 0 = some (k, d) ↔
      k < fuel ∧ tryLockGrant m (env k).1 (env k).2 = true ∧
      (∀ j, j < k → tryLockGrant m (env j).1 (env j).2 = false) ∧
      d = (k : Int) * m.spinDelay) ∧
    (lockSpin m env fuel 0 0 = none ↔
      ∀ j, j < fuel → tryLockGrant m (env j).1 (env j).2 = false) := by
  constructor
  · constructor
    · intro h
      obtain ⟨i, hif, hk, hd, hgi, hprev⟩ := lockSpin_sound m env fuel 0 0 k d h
      simp only [Nat.zero_add] at hk hd hgi hprev
      subst hk
      refine ⟨hif, hgi, hprev, by rw [hd]; ring⟩
    · rintro ⟨hkf, hg, hprev, hd⟩
      have := lockSpin_complete m env k fuel 0 0 hkf
        (by rw [Nat.zero_add]; exact hg)
        (by intro j hj; rw [Nat.zero_add]; exact hprev j hj)
      rw [this, Nat.zero_add, hd]
      congr 1
      rw [Prod.mk.injEq]
      exact ⟨rfl, by ring⟩
  · rw [lockSpin_none_iff m env fuel 0 0]
    constructor
    · intro h j hj
      have := h j hj
      rwa [Nat.zero_add] at this
    · intro h j hj
      rw [Nat.zero_add]
      exact h j hj

/-- C2: while a record written by a granted attempt of handle `A` has not
expired, a `tryLock` by any handle `B` with a different id is denied and
leaves the record unchanged. -/
theorem mutual_exclusion (A B : Mutex) (r0 : Option LockMeta) (t0 now : Int)
    (h1 : (tryLock A r0 t0).1 = true)
    (hid : B.id ≠ A.id)
    (hexp : ¬ (t0 + A.expiry < now)) :
    tryLock B (tryLock A r0 t0).2 now = (false, (tryLock A r0 t0).2) := by
  have hrec := tryLock_snd_of_grant A r0 t0 h1
  rw [hrec]
  have hg : tryLockGrant B (some (newLockMeta A t0)) now = false := by
    simp [tryLockGrant, newLockMeta, hexp]
    intro h
    exact absurd h.symm hid
  unfold tryLock
  rw [hg]
  simp

/-- C2 witness: `handleB` (id "2") is denied at time 5 against the record
`handleA` (id "1") wrote at time 0 with its 10000 ms expiry. -/
theorem mutual_exclusion_witness :
    tryLock handleB (tryLock handleA none 0).2 5 = (false, (tryLock handleA none 0).2) :=
  mutual_exclusion handleA handleB none 0 5 (by decide) (by decide) (by decide)

/-- C7: after a granted acquisition by `m` wrote its record, a second
`lock()` by `m` against that record is granted on its very first attempt
with zero accumulated spin wait, and the record still names `m.id` as
owner with a refreshed expiry. -/
theorem relock_immediate (m : Mutex) (r0 : Option LockMeta) (t0 t1 : Int)
    (env : Nat → Option LockMeta × Int) (fuel : Nat)
    (h1 : (tryLock m r0 t0).1 = true)
    (hf : 0 < fuel)
    (h0 : env 0 = ((tryLock m r0 t0).2, t1)) :
    lockSpin m env fuel 0 0 = some (0, 0) ∧
    (tryLock m (tryLock m r0 t0).2 t1).1 = true ∧
    (tryLock m (tryLock m r0 t0).2 t1).2 =
      some { owner := some m.id, expiresAt := t1 + m.expiry } := by
  have hrec := tryLock_snd_of_grant m r0 t0 h1
  have hg : tryLockGrant m (tryLock m r0 t0).2 t1 = true := by
    rw [hrec]
    simp [tryLockGrant, newLockMeta]
  refine ⟨?_, ?_, ?_⟩
  · obtain ⟨f, rfl⟩ : ∃ f, fuel = f + 1 := ⟨fuel - 1, by omega⟩
    rw [lockSpin_succ]
    rw [h0]
    rw [if_pos (by rw [← h0]; rw [h0]; exact hg)]
  · rw [tryLock_fst_iff]
    exact hg
  · have := tryLock_snd_of_grant m (tryLock m r0 t0).2 t1 (by rw [tryLock_fst_iff]; exact hg)
    rw [this]
    rfl

/-- C7 witness: `handleA` re-locks at time 5 the record it wrote at time
0; the single-attempt spin resolves at attempt 0 with no wait and the
owner is still `"1"`. -/
theorem relock_immediate_witness :
    lockSpin handleA (fun _ => ((tryLock handleA none 0).2, 5)) 1 0 0 = some (0, 0) ∧
    (tryLock handleA (tryLock handleA none 0).2 5).1 = true ∧
    (tryLock handleA (tryLock handleA none 0).2 5).2 =
      some { owner := some handleA.id, expiresAt := 5 + handleA.expiry } :=
  relock_immediate handleA none 0 5 (fun _ => ((tryLock handleA none 0).2, 5)) 1
    (by decide) (by decide) rfl

/-! ## Error propagation through the spin loop -/

/-- Unfolding one attempt of the fallible spin loop. -/
theorem lockSpinE_succ (m : Mutex) (env : Nat → Attempt) (fuel k : Nat) :
    lockSpinE m env (fuel + 1) k =
      match attemptE m env k with
      | .error e => some (.error e)
      | .ok (true, _) => some (.ok k)
      | .ok (false, _) => lockSpinE m env fuel (k + 1) := rfl

/-- A denied attempt is not an error: the loop waits and retries from the
next attempt. -/
theorem lockSpinE_denied_step (m : Mutex) (env : Nat → Attempt)
    (fuel k0 : Nat) (v : Option LockMeta)
    (h : attemptE m env k0 = .ok (false, v)) :
    lockSpinE m env (fuel + 1) k0 = lockSpinE m env fuel (k0 + 1) := by
  rw [lockSpinE_succ, h]

/-- If the fallible spin loop rejects, some attempt's store operation
failed with that error and every earlier attempt was an ordinary denial. -/
theorem lockSpinE_error_sound (m : Mutex) (env : Nat → Attempt) :
    ∀ (fuel k0 : Nat) (e : String),
      lockSpinE m env fuel k0 = some (.error e) →
        ∃ i, i < fuel ∧ attemptE m env (k0 + i) = .error e ∧
          ∀ j, j < i → ∃ v, attemptE m env (k0 + j) = .ok (false, v) := by
  intro fuel
  induction fuel with
  | zero =>
    intro k0 e h
    simp [lockSpinE] at h
  | succ fuel ih =>
    intro k0 e h
    rw [lockSpinE_succ] at h
    cases ha : attemptE m env k0 with
    | error e2 =>
      rw [ha] at h
      simp only [Option.some.injEq, Except.error.injEq] at h
      exact ⟨0, Nat.succ_pos fuel, by rw [Nat.add_zero, ha, h],
        fun j hj => absurd hj (Nat.not_lt_zero j)⟩
    | ok p =>
      obtain ⟨b, v⟩ := p
      cases b with
      | true =>
        rw [ha] at h
        simp at h
      | false =>
        rw [ha] at h
        obtain ⟨i, hif, hai, hprev⟩ := ih (k0 + 1) e h
        refine ⟨i + 1, by omega, ?_, ?_⟩
        · have he : k0 + (i + 1) = k0 + 1 + i := by omega
          rw [he]; exact hai
        · intro j hj
          cases j with
          | zero => exact ⟨v, by rw [Nat.add_zero]; exact ha⟩
          | succ j2 =>
            have he : k0 + (j2 + 1) = k0 + 1 + j2 := by omega
            rw [he]; exact hprev j2 (by omega)

/-- If an attempt's store operation fails and every earlier attempt was
denied, the failure propagates out of the loop at once. -/
theorem lockSpinE_error_complete (m : Mutex) (env : Nat → Attempt) :
    ∀ (i fuel k0 : Nat) (e : String), i < fuel →
      attemptE m env (k0 + i) = .error e →
      (∀ j, j < i → ∃ v, attemptE m env (k0 + j) = .ok (false, v)) →
      lockSpinE m env fuel k0 = some (.error e) := by
  intro i
  induction i with
  | zero =>
    intro fuel k0 e hif ha _
    obtain ⟨f, rfl⟩ : ∃ f, fuel = f + 1 := ⟨fuel - 1, by omega⟩
    rw [Nat.add_zero] at ha
    rw [lockSpinE_succ, ha]
  | succ i ih =>
    intro fuel k0 e hif ha hprev
    obtain ⟨f, rfl⟩ : ∃ f, fuel = f + 1 := ⟨fuel - 1, by omega⟩
    obtain ⟨v, hv⟩ := hprev 0 (Nat.succ_pos i)
    rw [Nat.add_zero] at hv
    rw [lockSpinE_succ, hv]
    refine ih f (k0 + 1) e (by omega) ?_ ?_
    · have he : k0 + 1 + i = k0 + (i + 1) := by omega
      rw [he]; exact ha
    · intro j hj
      have he : k0 + 1 + j = k0 + (j + 1) := by omega
      rw [he]; exact hprev (j + 1) (by omega)

/-- C5: `lock()` rejects iff some attempt's store read/write failed, in
which case the failure propagates out of the spin loop at the first
failing attempt — every earlier attempt was an ordinary denial and the
loop never catches or retries a failure; a denied attempt is not an error
and simply drives the next retry; a failing `get` rejects `tryLock` with
that error; `unlock` succeeds whenever its `put` succeeds and rejects with
the `put`'s error otherwise. -/
theorem lock_unlock_error_propagation (m : Mutex) (env : Nat → Attempt)
    (fuel : Nat) (e : String) :
    (lockSpinE m env fuel 0 = some (.error e) ↔
      ∃ i, i < fuel ∧ attemptE m env i = .error e ∧
        ∀ j, j < i → ∃ v, attemptE m env j = .ok (false, v)) ∧
    (∀ (k0 : Nat) (v : Option LockMeta), attemptE m env k0 = .ok (false, v) →
      lockSpinE m env (fuel + 1) k0 = lockSpinE m env fuel (k0 + 1)) ∧
    (∀ (rec : Option LockMeta) (now : Int) (we : Option String),
      tryLockE m rec now (some e) we = .error e) ∧
    (∀ rec : Option LockMeta, unlock m rec none = .ok (some unlockedMeta) ∧
      ∀ e2, unlock m rec (some e2) = .error e2) := by
  refine ⟨⟨?_, ?_⟩, ?_, ?_, ?_⟩
  · intro h
    obtain ⟨i, hif, hai, hprev⟩ := lockSpinE_error_sound m env fuel 0 e h
    rw [Nat.zero_add] at hai
    refine ⟨i, hif, hai, ?_⟩
    intro j hj
    have := hprev j hj
    rwa [Nat.zero_add] at this
  · rintro ⟨i, hif, hai, hprev⟩
    refine lockSpinE_error_complete m env i fuel 0 e hif ?_ ?_
    · rw [Nat.zero_add]; exact hai
    · intro j hj
      rw [Nat.zero_add]; exact hprev j hj
  · intro k0 v h
    exact lockSpinE_denied_step m env fuel k0 v h
  · intro rec now we
    rfl
  · intro rec
    exact ⟨rfl, fun _ => rfl⟩

/-! ## Constructor defaults and the random id -/

/-- C6: a handle constructed without `expiry` gets 10000 ms, without
`spinDelay` gets 50 ms, without `objectStoreName` gets the collection
name `"mutexes"`; and when no database is supplied the constructor opens
the database named `"idb-mutex"`, creating the object store. -/
theorem constructor_defaults (name : String) (r : ℚ) (db : Bool)
    (o : Option Options) :
    ((∀ oo, o = some oo → oo.expiry = none) →
      (mkMutex name r db o).expiry = 10000) ∧
    ((∀ oo, o = some oo → oo.spinDelay = none) →
      (mkMutex name r db o).spinDelay = 50) ∧
    ((∀ oo, o = some oo → oo.objectStoreName = none) →
      (mkMutex name r db o).objectStoreName = "mutexes") ∧
    (mkMutex name r false o).openedDefaultDb =
      some ("idb-mutex", (mkMutex name r false o).objectStoreName) := by
  refine ⟨?_, ?_, ?_, ?_⟩
  · intro h
    cases o with
    | none => simp [mkMutex, DEFAULT_EXPIRY]
    | some oo => simp [mkMutex, truthyInt, h oo rfl, DEFAULT_EXPIRY]
  · intro h
    cases o with
    | none => simp [mkMutex]
    | some oo => simp [mkMutex, truthyInt, h oo rfl]
  · intro h
    cases o with
    | none => simp [mkMutex]
    | some oo => simp [mkMutex, truthyStr, h oo rfl]
  · cases o with
    | none => simp [mkMutex]
    | some oo => simp [mkMutex]

/-- The generated id is the decimal string of an integer in `[0, 10000]`. -/
theorem mkId_range (r : ℚ) (h0 : 0 ≤ r) (h1 : r < 1) :
    ∃ n : Int, 0 ≤ n ∧ n ≤ 10000 ∧ mkId r = toString n := by
  refine ⟨jsRound (r * 10000), ?_, ?_, rfl⟩
  · unfold jsRound
    have h2 : (0 : ℚ) ≤ r * 10000 + 1 / 2 := by nlinarith
    exact Int.le_floor.mpr (by exact_mod_cast h2)
  · unfold jsRound
    have h2 : r * 10000 + 1 / 2 < ((10001 : Int) : ℚ) := by push_cast; nlinarith
    have h3 := Int.floor_lt.mpr h2
    omega

/-- C10: every generated id is the decimal string of an integer in
`[0, 10000]`, so at most 10001 distinct ids exist; ids of independently
constructed handles can collide (two distinct random draws give the same
id), and two handles with equal ids are each granted `tryLock` against a
record owned by the other. -/
theorem random_id_bounded_and_collision (r : ℚ) (h0 : 0 ≤ r) (h1 : r < 1) :
    (∃ n : Int, 0 ≤ n ∧ n ≤ 10000 ∧ mkId r = toString n) ∧
    (∀ s : Finset String, (∀ x ∈ s, ∃ q : ℚ, 0 ≤ q ∧ q < 1 ∧ x = mkId q) →
      s.card ≤ 10001) ∧
    (∃ r1 r2 : ℚ, r1 ≠ r2 ∧ 0 ≤ r1 ∧ r1 < 1 ∧ 0 ≤ r2 ∧ r2 < 1 ∧
      mkId r1 = mkId r2) ∧
    (∀ A B : Mutex, A.id = B.id → ∀ e now : Int,
      tryLockGrant A (some { owner := some B.id, expiresAt := e }) now = true ∧
      tryLockGrant B (some { owner := some A.id, expiresAt := e }) now = true) := by
  refine ⟨mkId_range r h0 h1, ?_, ?_, ?_⟩
  · intro s hs
    have hsub : s ⊆ (Finset.Icc (0 : Int) 10000).image (fun n => toString n) := by
      intro x hx
      obtain ⟨q, hq0, hq1, rfl⟩ := hs x hx
      obtain ⟨n, hn0, hn1, heq⟩ := mkId_range q hq0 hq1
      rw [heq]
      exact Finset.mem_image.mpr ⟨n, Finset.mem_Icc.mpr ⟨hn0, hn1⟩, rfl⟩
    calc s.card ≤ ((Finset.Icc (0 : Int) 10000).image (fun n => toString n)).card :=
          Finset.card_le_card hsub
      _ ≤ (Finset.Icc (0 : Int) 10000).card := Finset.card_image_le
      _ = 10001 := by rw [Int.card_Icc]; rfl
  · refine ⟨0, 1 / 100000, by norm_num, le_refl 0, by norm_num, by norm_num, by norm_num, ?_⟩
    have e1 : (⌊(0 : ℚ) * 10000 + 1 / 2⌋ : Int) = 0 := by norm_num
    have e2 : (⌊(1 : ℚ) / 100000 * 10000 + 1 / 2⌋ : Int) = 0 := by norm_num
    unfold mkId jsRound
    rw [e1, e2]
  · intro A B hAB e now
    constructor
    · simp [tryLockGrant, hAB]
    · simp [tryLockGrant, hAB]

/-- C10 witness: the conjunction instantiated at the draw `r = 0`. -/
theorem random_id_bounded_and_collision_witness :
    (∃ n : Int, 0 ≤ n ∧ n ≤ 10000 ∧ mkId 0 = toString n) ∧
    (∀ s : Finset String, (∀ x ∈ s, ∃ q : ℚ, 0 ≤ q ∧ q < 1 ∧ x = mkId q) →
      s.card ≤ 10001) ∧
    (∃ r1 r2 : ℚ, r1 ≠ r2 ∧ 0 ≤ r1 ∧ r1 < 1 ∧ 0 ≤ r2 ∧ r2 < 1 ∧
      mkId r1 = mkId r2) ∧
    (∀ A B : Mutex, A.id = B.id → ∀ e now : Int,
      tryLockGrant A (some { owner := some B.id, expiresAt := e }) now = true ∧
      tryLockGrant B (some { owner := some A.id, expiresAt := e }) now = true) :=
  random_id_bounded_and_collision 0 (le_refl 0) (by norm_num)

end IdbMutex
